import Mathlib

/-!
Verification of the resource-record codec of the `nodejs-dns` client library
(`src/record.js`): the `Record` constructor, `Record.fromZoneRecord_`,
`Record.prototype.toJSON` and `Record.prototype.toString`.

The embedding models the JavaScript values the codec manipulates (strings,
integers, arrays, plain objects, `undefined`) and the object operations the
source uses: property read and assignment, `delete`, the npm `extend`
shallow-merge (which skips properties whose value is `undefined`), and the
npm `arrify` coercion.  Objects are modelled as association lists of
key/value pairs in insertion order, matching the enumerable own properties
of a JS object; every object built by the codec has pairwise-distinct keys.

The `format` helper is the npm dependency `string-format-obj`, whose source
is not part of this repository; it is modelled from the specification (see
`format` below).
-/

namespace DnsRecord

/-- JavaScript values as used by the record codec: `undefined`, strings,
integer numbers, arrays and plain objects. -/
inductive JSVal where
  | vundef : JSVal
  | vstr : String → JSVal
  | vnum : Int → JSVal
  | varr : List JSVal → JSVal
  | vobj : List (String × JSVal) → JSVal

/-- A JavaScript object: its enumerable own properties in insertion order. -/
abbrev Obj := List (String × JSVal)

/-- Property read, `o[k]`: the value at key `k`, or `undefined` when the key
is absent. -/
def getO (o : Obj) (k : String) : JSVal :=
  match o.find? (fun p => p.1 == k) with
  | some p => p.2
  | none => JSVal.vundef

/-- Key presence, `k in o`. -/
def hasO (o : Obj) (k : String) : Bool :=
  o.any (fun p => p.1 == k)

/-- Property assignment, `o[k] = v`: replaces the value in place when the key
exists, otherwise appends the key at the end (JS insertion order). -/
def setO (o : Obj) (k : String) (v : JSVal) : Obj :=
  if o.any (fun p => p.1 == k) then
    o.map (fun p => if p.1 == k then (k, v) else p)
  else
    o ++ [(k, v)]

/-- Property deletion, `delete o[k]`. -/
def delO (o : Obj) (k : String) : Obj :=
  o.filter (fun p => !(p.1 == k))

/-- Is the value defined (not `undefined`)? -/
def isDef : JSVal → Bool
  | JSVal.vundef => false
  | _ => true

/-- JavaScript truthiness for the values modelled here: `undefined`, the
empty string and `0` are falsy; every array and object is truthy. -/
def truthy : JSVal → Bool
  | JSVal.vundef => false
  | JSVal.vstr s => !(s == "")
  | JSVal.vnum i => !(i == 0)
  | JSVal.varr _ => true
  | JSVal.vobj _ => true

/-- The npm `extend` shallow merge, `extend(target, source)`: assigns every
enumerable own property of `source` onto `target` in order, skipping
properties whose value is `undefined` (as `extend` does). -/
def extendO (target source : Obj) : Obj :=
  source.foldl (fun acc p => if isDef p.2 then setO acc p.1 p.2 else acc) target

/-- The npm `arrify` dependency: `undefined` (or `null`) becomes the empty
array, an array passes through unchanged, any other value is wrapped in a
one-element array. -/
def arrify : JSVal → JSVal
  | JSVal.vundef => JSVal.varr []
  | JSVal.varr xs => JSVal.varr xs
  | v => JSVal.varr [v]

/-- ASCII upper-casing of a string, as `String.prototype.toUpperCase` acts on
the ASCII record type tags handled by the codec. -/
def upperStr (s : String) : String :=
  String.mk (s.data.map Char.toUpper)

/-- ASCII lower-casing of a string, as `String.prototype.toLowerCase` acts on
the ASCII record type tags handled by the codec. -/
def lowerStr (s : String) : String :=
  String.mk (s.data.map Char.toLower)

/-- Comma-join of array element strings, as `Array.prototype.join` with the
default separator. -/
def commaJoin : List String → String
  | [] => ""
  | [s] => s
  | s :: t :: rest => s ++ "," ++ commaJoin (t :: rest)

/-- Rendering of one array element under array string coercion
(`Array.prototype.join`): `undefined` renders as the empty string, scalars
and objects as under `jsToString`.  Arrays nested inside arrays are rendered
one level deep only; the codec never substitutes a nested array (every value
it stringifies is a string, a number, the synthetic empty object, or a flat
sequence of strings). -/
def jsElemToString : JSVal → String
  | JSVal.vundef => ""
  | JSVal.vstr s => s
  | JSVal.vnum i => toString i
  | JSVal.varr _ => ""
  | JSVal.vobj _ => "[object Object]"

/-- JavaScript string coercion of a value, as performed when a value is
substituted into a template: strings pass through, numbers print in decimal,
arrays join their elements with commas, plain objects print as
`[object Object]` and `undefined` prints as `undefined`. -/
def jsToString : JSVal → String
  | JSVal.vundef => "undefined"
  | JSVal.vstr s => s
  | JSVal.vnum i => toString i
  | JSVal.varr xs => commaJoin (xs.map jsElemToString)
  | JSVal.vobj _ => "[object Object]"

/-- Errors of the codec, per the specification: `missingField` names the
unresolved template placeholder; `unsupportedRecordType` is the failure for a
record type absent from the format table; `typeError` models the JavaScript
runtime error of calling an array method on a non-array value. -/
inductive JsErr where
  | missingField : String → JsErr
  | unsupportedRecordType : JsErr
  | typeError : JsErr
deriving DecidableEq

/-- One piece of a format template: literal text or a named placeholder. -/
inductive TItem where
  | lit : String → TItem
  | field : String → TItem
deriving DecidableEq

/-- The opening brace character of a template placeholder. -/
def lbrace : Char := Char.ofNat 123

/-- The closing brace character of a template placeholder. -/
def rbrace : Char := Char.ofNat 125

/-- Splits a character list at the first closing brace: returns the
placeholder name characters and the remainder, or `none` when no closing
brace follows. -/
def splitKey : List Char → Option (List Char × List Char)
  | [] => none
  | c :: cs =>
    if c = rbrace then some ([], cs)
    else (splitKey cs).map (fun p => (c :: p.1, p.2))

/-- Fuelled template scanner: an opening brace with a matching closing brace
yields a placeholder item, any other character is literal text. -/
def tokenizeAux : Nat → List Char → List TItem
  | 0, _ => []
  | _ + 1, [] => []
  | fuel + 1, c :: cs =>
    if c = lbrace then
      match splitKey cs with
      | some (k, rest) => TItem.field (String.mk k) :: tokenizeAux fuel rest
      | none => TItem.lit (String.mk [c]) :: tokenizeAux fuel cs
    else TItem.lit (String.mk [c]) :: tokenizeAux fuel cs

/-- Parses a template string into its literal and placeholder items. -/
def tokenize (s : String) : List TItem :=
  tokenizeAux s.data.length s.data

/-- Substitutes an object's fields into template items, left to right; a
placeholder whose key is absent from the object is an unresolved placeholder
and fails with `missingField` naming it. -/
def substItems (bd : Obj) : List TItem → Except JsErr String
  | [] => Except.ok ""
  | TItem.lit s :: rest => (substItems bd rest).map (fun t => s ++ t)
  | TItem.field k :: rest =>
    if hasO bd k then
      (substItems bd rest).map (fun t => jsToString (getO bd k) ++ t)
    else Except.error (JsErr.missingField k)

/-- Modelled from the spec: the `format` helper is the npm dependency
`string-format-obj`, whose source is not part of this repository.  Per the
specification (sections 4.1 and 7), substituting named fields into a template
fails with a `MissingField` error identifying the unresolved placeholder, and
the absence of a template (a type not present in the format table, so that
the table lookup produced no template) fails with `UnsupportedRecordType`. -/
def format (tmpl : Option String) (bd : Obj) : Except JsErr String :=
  match tmpl with
  | none => Except.error JsErr.unsupportedRecordType
  | some t => substItems bd (tokenize t)

/-- The `typeToZoneFormat` table of `Record.fromZoneRecord_`, keyed by
lower-cased record type. -/
def typeToZoneFormat : List (String × String) :=
  [("a", "\x7bip\x7d"),
   ("aaaa", "\x7bip\x7d"),
   ("cname", "\x7balias\x7d"),
   ("mx", "\x7bpreference\x7d \x7bhost\x7d"),
   ("ns", "\x7bhost\x7d"),
   ("soa", "\x7bmname\x7d \x7brname\x7d \x7bserial\x7d \x7bretry\x7d \x7brefresh\x7d \x7bexpire\x7d \x7bminimum\x7d"),
   ("spf", "\x7bdata\x7d"),
   ("srv", "\x7bpriority\x7d \x7bweight\x7d \x7bport\x7d \x7btarget\x7d"),
   ("txt", "\x7btxt\x7d")]

/-- Table lookup `typeToZoneFormat[type.toLowerCase()]`: `none` when the
lower-cased type is not a key of the table. -/
def lookupFormat (t : String) : Option String :=
  (typeToZoneFormat.find? (fun p => p.1 == t)).map (fun p => p.2)

/-- `Record.prototype.toJSON`: builds a fresh object (`extend` of an empty
object) from all metadata fields with `type` set to the upper-cased record
type; when the copied `data` field is truthy it is replaced by the `rrdatas`
field holding its `arrify` coercion and the `data` key is deleted. -/
def toJSON (ty : String) (metadata : Obj) : Obj :=
  let recordObject := extendO (extendO [] metadata)
    [("type", JSVal.vstr (upperStr ty))]
  if truthy (getO recordObject "data") then
    delO (setO recordObject "rrdatas" (arrify (getO recordObject "data"))) "data"
  else recordObject

/-- The `Record` constructor: stores `type` and `metadata`, extends the new
object with its own `toJSON` output, and when the resulting `rrdatas` field
is truthy renames it to `data` (assign then delete).  The `zone_` reference,
an external service handle irrelevant to the codec, is omitted. -/
def mkRecord (ty : String) (metadata : Obj) : Obj :=
  let this0 : Obj := [("type", JSVal.vstr ty), ("metadata", JSVal.vobj metadata)]
  let this1 := extendO this0 (toJSON ty metadata)
  if truthy (getO this1 "rrdatas") then
    delO (setO this1 "data" (getO this1 "rrdatas")) "rrdatas"
  else this1

/-- `Record.fromZoneRecord_`: formats the `bindData` fields through the
template looked up by the lower-cased type, then constructs a `Record` from
the metadata object `data` / `name` / `ttl` (the latter two read from
`bindData`).  The `zone` argument, an external service handle, is omitted. -/
def fromZoneRecord_ (ty : String) (bindData : Obj) : Except JsErr Obj :=
  (format (lookupFormat (lowerStr ty)) bindData).map (fun d =>
    mkRecord ty
      [("data", JSVal.vstr d),
       ("name", getO bindData "name"),
       ("ttl", getO bindData "ttl")])

/-- The line template of `Record.prototype.toString`. -/
def lineTemplate : String := "\x7bname\x7d \x7bttl\x7d IN \x7btype\x7d \x7brrdata\x7d"

/-- Newline join with no trailing newline (`Array.prototype.join` with a
newline separator): continuation after the first line. -/
def joinNLRest : List String → String
  | [] => ""
  | l :: rest => "\n" ++ l ++ joinNLRest rest

/-- Newline join with no trailing newline. -/
def joinNL : List String → String
  | [] => ""
  | l :: rest => l ++ joinNLRest rest

/-- One formatted line per entry: each iteration assigns the entry to the
`rrdata` field of the `toJSON` output and formats the line template over it
(the source mutates one shared `json` object; each assignment overwrites the
previous `rrdata`, so formatting against the base object per entry is the
same function). -/
def renderLines (json : Obj) : List JSVal → Except JsErr (List String)
  | [] => Except.ok []
  | v :: rest => do
    let line ← substItems (setO json "rrdata" v) (tokenize lineTemplate)
    let more ← renderLines json rest
    pure (line :: more)

/-- `Record.prototype.toString` over the record's `type` and `metadata`
fields: maps the line template over `json.rrdatas`, or over the single
synthetic empty-object entry when `rrdatas` is falsy (in JavaScript an empty
array is truthy, so an empty `rrdatas` maps to zero lines); a truthy
non-array `rrdatas` would fail the array-map call, modelled as `typeError`. -/
def toStringM (ty : String) (metadata : Obj) : Except JsErr String := do
  let json := toJSON ty metadata
  let rr := getO json "rrdatas"
  let entries ←
    if truthy rr then
      match rr with
      | JSVal.varr xs => Except.ok xs
      | _ => Except.error JsErr.typeError
    else Except.ok [JSVal.vobj []]
  let lines ← renderLines json entries
  pure (joinNL lines)

/-- Reads a string value (the stored `type` field of a constructed record). -/
def strOf : JSVal → String
  | JSVal.vstr s => s
  | _ => ""

/-- Reads an object value (the stored `metadata` field of a record). -/
def objOf : JSVal → Obj
  | JSVal.vobj o => o
  | _ => []

/-- `record.toString()`: the method body reads `this.type` and
`this.metadata` through `this.toJSON()`. -/
def recordToString (r : Obj) : Except JsErr String :=
  toStringM (strOf (getO r "type")) (objOf (getO r "metadata"))

/-- `record.toJSON()`: the method body reads `this.type` and
`this.metadata`. -/
def recordToJSON (r : Obj) : Obj :=
  toJSON (strOf (getO r "type")) (objOf (getO r "metadata"))

/-- The `toJSON` method as a state transformer on the record object: the
returned pair is the built mapping and the record state after the call.  The
method body builds its result by extending a fresh empty object and deletes
only on that local copy; no statement writes to `this`, so the state after
the call is the state before. -/
def toJSONcall (this : Obj) : Obj × Obj :=
  (toJSON (strOf (getO this "type")) (objOf (getO this "metadata")), this)

/-- Extracts the record object from a fallible construction, defaulting to
the empty object (used only to state properties of successful results). -/
def okOr (e : Except JsErr Obj) : Obj :=
  match e with
  | Except.ok r => r
  | Except.error _ => []

/-- Did the fallible construction succeed? -/
def isOkE (e : Except JsErr Obj) : Bool :=
  match e with
  | Except.ok _ => true
  | Except.error _ => false

/-- All placeholder fields of the template items are present in the object. -/
def fieldsPresent (bd : Obj) (toks : List TItem) : Bool :=
  toks.all (fun t =>
    match t with
    | TItem.field k => hasO bd k
    | TItem.lit _ => true)

/-- The substitution of an object's fields into template items, with every
placeholder replaced by the string coercion of the field's value in order. -/
def renderItems (bd : Obj) : List TItem → String
  | [] => ""
  | TItem.lit s :: rest => s ++ renderItems bd rest
  | TItem.field k :: rest => jsToString (getO bd k) ++ renderItems bd rest

/-- When every placeholder field is present, template substitution succeeds
and produces the in-order substitution of the fields. -/
theorem substItems_renders (bd : Obj) :
    ∀ toks : List TItem, fieldsPresent bd toks = true →
      substItems bd toks = Except.ok (renderItems bd toks)
  | [], _ => rfl
  | TItem.lit s :: rest, h => by
    have hrest : fieldsPresent bd rest = true := by
      simpa [fieldsPresent] using h
    simp [substItems, Except.map, renderItems, substItems_renders bd rest hrest]
  | TItem.field k :: rest, h => by
    have hk : hasO bd k = true := by
      have := h
      simp [fieldsPresent] at this
      exact this.1
    have hrest : fieldsPresent bd rest = true := by
      have := h
      simp [fieldsPresent] at this
      simpa [fieldsPresent] using this.2
    simp [substItems, Except.map, renderItems, hk, substItems_renders bd rest hrest]

/-- When some placeholder field is absent, template substitution fails with
a `missingField` error naming an absent placeholder of the template. -/
theorem substItems_missing (bd : Obj) :
    ∀ toks : List TItem,
      (∃ k, TItem.field k ∈ toks ∧ hasO bd k = false) →
      ∃ k, substItems bd toks = Except.error (JsErr.missingField k) ∧
        TItem.field k ∈ toks ∧ hasO bd k = false
  | [], h => absurd h.choose_spec.1 (List.not_mem_nil _)
  | TItem.lit s :: rest, h => by
    obtain ⟨k, hmem, hk⟩ := h
    have hmem : TItem.field k ∈ rest := by
      cases hmem with
      | tail _ h => exact h
    obtain ⟨k2, he, hm2, hh2⟩ := substItems_missing bd rest ⟨k, hmem, hk⟩
    exact ⟨k2, by simp [substItems, Except.map, he], List.mem_cons_of_mem _ hm2, hh2⟩
  | TItem.field f :: rest, h => by
    by_cases hf : hasO bd f
    · obtain ⟨k, hmem, hk⟩ := h
      have hmem : TItem.field k ∈ rest := by
        cases hmem with
        | head => exact absurd hf (by simp [hk])
        | tail _ h => exact h
      obtain ⟨k2, he, hm2, hh2⟩ := substItems_missing bd rest ⟨k, hmem, hk⟩
      exact ⟨k2, by simp [substItems, Except.map, hf, he], List.mem_cons_of_mem _ hm2, hh2⟩
    · exact ⟨f, by simp [substItems, hf], List.mem_cons_self _ _,
        by simpa using hf⟩

/-- Properties of a record constructed from metadata whose `data` field is a
nonempty string: the constructor arrifies it into a one-element sequence,
copies `name` and `ttl` through unchanged (also when absent), and stores the
upper-cased type. -/
theorem mkRecord_data (ty s : String) (nv tv : JSVal) (hs : s ≠ "") :
    getO (mkRecord ty [("data", JSVal.vstr s), ("name", nv), ("ttl", tv)]) "data"
        = JSVal.varr [JSVal.vstr s] ∧
    getO (mkRecord ty [("data", JSVal.vstr s), ("name", nv), ("ttl", tv)]) "name" = nv ∧
    getO (mkRecord ty [("data", JSVal.vstr s), ("name", nv), ("ttl", tv)]) "ttl" = tv ∧
    getO (mkRecord ty [("data", JSVal.vstr s), ("name", nv), ("ttl", tv)]) "type"
        = JSVal.vstr (upperStr ty) := by
  cases nv <;> cases tv <;>
    simp [mkRecord, toJSON, extendO, setO, delO, getO, hasO, truthy, arrify, isDef, hs]

/-- C4: for every input type not present in the format table (the lookup by
lower-cased type yields no template), `fromZoneRecord_` fails with the
`UnsupportedRecordType` error and produces no partial record (the whole
computation is the error, so no record object is returned). -/
theorem fromZoneRecord_unsupported (ty : String) (bd : Obj)
    (h : lookupFormat (lowerStr ty) = none) :
    fromZoneRecord_ ty bd = Except.error JsErr.unsupportedRecordType := by
  simp [fromZoneRecord_, h, format, Except.map]

/-- Witness for C4: the type `BOGUS` is not in the table and fails. -/
theorem fromZoneRecord_unsupported_witness :
    lookupFormat (lowerStr "BOGUS") = none ∧
    fromZoneRecord_ "BOGUS" [("name", JSVal.vstr "example.com."), ("ttl", JSVal.vnum 300)]
      = Except.error JsErr.unsupportedRecordType :=
  ⟨rfl, fromZoneRecord_unsupported "BOGUS" _ rfl⟩

/-- C5: for every supported record type (the lookup by lower-cased type
yields a template) and every field map missing a placeholder field of that
template, the substitution fails with a `MissingField` error identifying an
unresolved placeholder, and `fromZoneRecord_` propagates that error to the
caller rather than swallowing it. -/
theorem fromZoneRecord_missingField (ty tmpl : String) (bd : Obj)
    (hl : lookupFormat (lowerStr ty) = some tmpl)
    (hm : ∃ k, TItem.field k ∈ tokenize tmpl ∧ hasO bd k = false) :
    ∃ k, fromZoneRecord_ ty bd = Except.error (JsErr.missingField k) ∧
      TItem.field k ∈ tokenize tmpl ∧ hasO bd k = false := by
  obtain ⟨k2, he, hm2, hh2⟩ := substItems_missing bd (tokenize tmpl) hm
  exact ⟨k2, by simp [fromZoneRecord_, hl, format, he, Except.map], hm2, hh2⟩

/-- Witness for C5: an SOA field map without its `minimum` field fails with
the `MissingField` error naming an absent placeholder of the SOA template. -/
theorem fromZoneRecord_missingField_witness :
    ∃ k, fromZoneRecord_ "SOA"
        [("name", JSVal.vstr "example.com."), ("ttl", JSVal.vnum 21600),
         ("mname", JSVal.vstr "ns1.example.com."), ("rname", JSVal.vstr "admin.example.com."),
         ("serial", JSVal.vnum 1), ("retry", JSVal.vnum 7200), ("refresh", JSVal.vnum 3600),
         ("expire", JSVal.vnum 1209600)] = Except.error (JsErr.missingField k) ∧
      TItem.field k ∈ tokenize "\x7bmname\x7d \x7brname\x7d \x7bserial\x7d \x7bretry\x7d \x7brefresh\x7d \x7bexpire\x7d \x7bminimum\x7d" ∧
      hasO [("name", JSVal.vstr "example.com."), ("ttl", JSVal.vnum 21600),
         ("mname", JSVal.vstr "ns1.example.com."), ("rname", JSVal.vstr "admin.example.com."),
         ("serial", JSVal.vnum 1), ("retry", JSVal.vnum 7200), ("refresh", JSVal.vnum 3600),
         ("expire", JSVal.vnum 1209600)] k = false :=
  fromZoneRecord_missingField "SOA" _ _ rfl ⟨"minimum", by decide, rfl⟩

/-- C8 counterexample: a record constructed from metadata holding a falsy
`data` and a falsy `rrdatas` (both the empty string) keeps both keys after
construction — the truthiness-gated rename does not fire, so the `data` and
`rrdatas` keys coexist on the constructed record, and the `rrdatas` key is
neither renamed nor removed. -/
theorem mkRecord_coexist_counterexample :
    hasO (mkRecord "A" [("name", JSVal.vstr "example.com."), ("ttl", JSVal.vnum 300),
        ("data", JSVal.vstr ""), ("rrdatas", JSVal.vstr "")]) "data" = true ∧
    hasO (mkRecord "A" [("name", JSVal.vstr "example.com."), ("ttl", JSVal.vnum 300),
        ("data", JSVal.vstr ""), ("rrdatas", JSVal.vstr "")]) "rrdatas" = true ∧
    getO (mkRecord "A" [("name", JSVal.vstr "example.com."), ("ttl", JSVal.vnum 300),
        ("data", JSVal.vstr ""), ("rrdatas", JSVal.vstr "")]) "rrdatas" = JSVal.vstr "" :=
  ⟨rfl, rfl, rfl⟩

/-- C8 amended: the construction-time rename fires exactly when the
post-extension `rrdatas` value is truthy — in particular for any sequence
value.  Then the wire name is renamed to `data` and removed, so the two
field names do not coexist: a record built from metadata carrying `rrdatas`
as a sequence (and no `data`) ends with that sequence under `data` and
without the `rrdatas` key; the same holds when a truthy `data` is present as
well (the `rrdatas` produced by the self-extension is renamed and removed). -/
theorem mkRecord_rrdatas_renamed (ty n : String) (t : Int) (xs ys : List JSVal) :
    (getO (mkRecord ty [("name", JSVal.vstr n), ("ttl", JSVal.vnum t),
        ("rrdatas", JSVal.varr xs)]) "data" = JSVal.varr xs ∧
     hasO (mkRecord ty [("name", JSVal.vstr n), ("ttl", JSVal.vnum t),
        ("rrdatas", JSVal.varr xs)]) "rrdatas" = false) ∧
    (getO (mkRecord ty [("name", JSVal.vstr n), ("ttl", JSVal.vnum t),
        ("data", JSVal.varr ys), ("rrdatas", JSVal.varr xs)]) "data" = JSVal.varr ys ∧
     hasO (mkRecord ty [("name", JSVal.vstr n), ("ttl", JSVal.vnum t),
        ("data", JSVal.varr ys), ("rrdatas", JSVal.varr xs)]) "rrdatas" = false) := by
  constructor <;> constructor <;>
    simp [mkRecord, toJSON, extendO, setO, delO, getO, hasO, truthy, arrify, isDef]

/-- C9: the constructor extends the record with its own `toJSON` output,
whose `type` field is the upper-cased type, overwriting the stored `type`;
after construction the in-memory `type` field is the uppercase form whatever
casing the caller supplied (with or without a `data` metadata field), so the
original casing is not preserved on the constructed object. -/
theorem mkRecord_type_uppercase (ty n : String) (t : Int) (dv : JSVal) :
    getO (mkRecord ty [("name", JSVal.vstr n), ("ttl", JSVal.vnum t), ("data", dv)]) "type"
        = JSVal.vstr (upperStr ty) ∧
    getO (mkRecord ty [("name", JSVal.vstr n), ("ttl", JSVal.vnum t)]) "type"
        = JSVal.vstr (upperStr ty) := by
  constructor
  · cases dv with
    | vundef =>
      simp [mkRecord, toJSON, extendO, setO, delO, getO, hasO, truthy, arrify, isDef]
    | vstr s =>
      by_cases hs : s = "" <;>
        simp [mkRecord, toJSON, extendO, setO, delO, getO, hasO, truthy, arrify, isDef, hs]
    | vnum i =>
      by_cases hi : i = 0 <;>
        simp [mkRecord, toJSON, extendO, setO, delO, getO, hasO, truthy, arrify, isDef, hi]
    | varr xs =>
      simp [mkRecord, toJSON, extendO, setO, delO, getO, hasO, truthy, arrify, isDef]
    | vobj o =>
      simp [mkRecord, toJSON, extendO, setO, delO, getO, hasO, truthy, arrify, isDef]
  · simp [mkRecord, toJSON, extendO, setO, delO, getO, hasO, truthy, arrify, isDef]

/-- C10: the `rrdatas` handling of `toJSON` is gated on JavaScript
truthiness of the copied `data`, not on key presence: a present-but-falsy
`data` (the empty string) yields an output without any `rrdatas` key (while
the falsy `data` itself is left in the output), whereas a present empty
sequence (truthy in JavaScript) yields an output whose `rrdatas` is the
empty sequence. -/
theorem toJSON_truthiness_gate (ty n : String) (t : Int) :
    hasO (toJSON ty [("name", JSVal.vstr n), ("ttl", JSVal.vnum t),
        ("data", JSVal.vstr "")]) "rrdatas" = false ∧
    getO (toJSON ty [("name", JSVal.vstr n), ("ttl", JSVal.vnum t),
        ("data", JSVal.vstr "")]) "data" = JSVal.vstr "" ∧
    getO (toJSON ty [("name", JSVal.vstr n), ("ttl", JSVal.vnum t),
        ("data", JSVal.varr [])]) "rrdatas" = JSVal.varr [] ∧
    hasO (toJSON ty [("name", JSVal.vstr n), ("ttl", JSVal.vnum t),
        ("data", JSVal.varr [])]) "data" = false := by
  refine ⟨?_, ?_, ?_, ?_⟩ <;>
    simp [toJSON, extendO, setO, delO, getO, hasO, truthy, arrify, isDef]

/-- C1 counterexample: a record metadata with a present but falsy `data`
field (the empty string) is not renamed by `toJSON` — the output keeps the
`data` key with the empty string and has no `rrdatas` key at all, instead of
the one-element sequence the claim requires for every present `data`. -/
theorem toJSON_falsy_data_counterexample :
    toJSON "a" [("name", JSVal.vstr "example.com."), ("ttl", JSVal.vnum 300),
        ("data", JSVal.vstr "")] =
      [("name", JSVal.vstr "example.com."), ("ttl", JSVal.vnum 300),
       ("data", JSVal.vstr ""), ("type", JSVal.vstr "A")] ∧
    hasO (toJSON "a" [("name", JSVal.vstr "example.com."), ("ttl", JSVal.vnum 300),
        ("data", JSVal.vstr "")]) "rrdatas" = false :=
  ⟨rfl, rfl⟩

/-- C1 amended: `toJSON` combines the metadata fields with `type` replaced
by the uppercase form of the record's type; a truthy `data` field is renamed
to `rrdatas` and coerced to a sequence (a nonempty scalar string becomes a
one-element sequence, a sequence passes through unchanged); when `data` is
absent the output has no `rrdatas` key at all; a present but falsy `data`
(such as the empty string) is not renamed: it stays under `data` and no
`rrdatas` key appears. -/
theorem toJSON_shape (ty n : String) (t : Int) (s : String) (ss : List JSVal)
    (hs : s ≠ "") :
    toJSON ty [("name", JSVal.vstr n), ("ttl", JSVal.vnum t), ("data", JSVal.vstr s)] =
      [("name", JSVal.vstr n), ("ttl", JSVal.vnum t), ("type", JSVal.vstr (upperStr ty)),
       ("rrdatas", JSVal.varr [JSVal.vstr s])] ∧
    toJSON ty [("name", JSVal.vstr n), ("ttl", JSVal.vnum t), ("data", JSVal.varr ss)] =
      [("name", JSVal.vstr n), ("ttl", JSVal.vnum t), ("type", JSVal.vstr (upperStr ty)),
       ("rrdatas", JSVal.varr ss)] ∧
    toJSON ty [("name", JSVal.vstr n), ("ttl", JSVal.vnum t)] =
      [("name", JSVal.vstr n), ("ttl", JSVal.vnum t), ("type", JSVal.vstr (upperStr ty))] ∧
    toJSON ty [("name", JSVal.vstr n), ("ttl", JSVal.vnum t), ("data", JSVal.vstr "")] =
      [("name", JSVal.vstr n), ("ttl", JSVal.vnum t), ("data", JSVal.vstr ""),
       ("type", JSVal.vstr (upperStr ty))] := by
  refine ⟨?_, ?_, ?_, ?_⟩ <;>
    simp [toJSON, extendO, setO, delO, getO, hasO, truthy, arrify, isDef, hs]

/-- Witness for the amended C1 at a concrete record. -/
theorem toJSON_shape_witness :
    toJSON "a" [("name", JSVal.vstr "example.com."), ("ttl", JSVal.vnum 86400),
        ("data", JSVal.vstr "1.2.3.4")] =
      [("name", JSVal.vstr "example.com."), ("ttl", JSVal.vnum 86400),
       ("type", JSVal.vstr "A"), ("rrdatas", JSVal.varr [JSVal.vstr "1.2.3.4"])] :=
  (toJSON_shape "a" "example.com." 86400 "1.2.3.4" [] (by decide)).1

/-- C6: round-trip — for a record constructed with a `data` sequence of
strings, the `rrdatas` field of the record's `toJSON` output is exactly the
record's own `data` field, which is the original sequence element for
element. -/
theorem toJSON_roundtrip (ty n : String) (t : Int) (ss : List String) :
    getO (recordToJSON (mkRecord ty [("name", JSVal.vstr n), ("ttl", JSVal.vnum t),
        ("data", JSVal.varr (ss.map JSVal.vstr))])) "rrdatas"
      = getO (mkRecord ty [("name", JSVal.vstr n), ("ttl", JSVal.vnum t),
        ("data", JSVal.varr (ss.map JSVal.vstr))]) "data" ∧
    getO (mkRecord ty [("name", JSVal.vstr n), ("ttl", JSVal.vnum t),
        ("data", JSVal.varr (ss.map JSVal.vstr))]) "data"
      = JSVal.varr (ss.map JSVal.vstr) := by
  constructor <;>
    simp [recordToJSON, mkRecord, toJSON, extendO, setO, delO, getO, hasO, truthy,
      arrify, isDef, strOf, objOf]

/-- C7: the `toJSON` method is pure and deterministic — the record state
after the call is the state before (the body only builds a fresh object; no
statement assigns to the record), so the record's own `type`, `metadata`,
`name`, `data` and `ttl` fields are unchanged, and a second call on the
post-call record returns a structurally equal mapping. -/
theorem toJSON_pure (r : Obj) :
    (toJSONcall r).2 = r ∧
    (toJSONcall ((toJSONcall r).2)).1 = (toJSONcall r).1 ∧
    getO (toJSONcall r).2 "type" = getO r "type" ∧
    getO (toJSONcall r).2 "metadata" = getO r "metadata" ∧
    getO (toJSONcall r).2 "name" = getO r "name" ∧
    getO (toJSONcall r).2 "data" = getO r "data" ∧
    getO (toJSONcall r).2 "ttl" = getO r "ttl" :=
  ⟨rfl, rfl, rfl, rfl, rfl, rfl, rfl⟩

/-- C2 counterexample: for the supported type `a` with its `ip` template
field provided as the empty string, `fromZoneRecord_` succeeds but the
constructed record's `data` is the scalar empty string — not a one-element
sequence — because the empty substituted string is falsy and the
construction-time sequence coercion is skipped. -/
theorem fromZoneRecord_empty_counterexample :
    isOkE (fromZoneRecord_ "a" [("name", JSVal.vstr "example.com."),
        ("ttl", JSVal.vnum 300), ("ip", JSVal.vstr "")]) = true ∧
    getO (okOr (fromZoneRecord_ "a" [("name", JSVal.vstr "example.com."),
        ("ttl", JSVal.vnum 300), ("ip", JSVal.vstr "")])) "data" = JSVal.vstr "" ∧
    getO (okOr (fromZoneRecord_ "a" [("name", JSVal.vstr "example.com."),
        ("ttl", JSVal.vnum 300), ("ip", JSVal.vstr "")])) "data"
      ≠ JSVal.varr [JSVal.vstr ""] :=
  ⟨rfl, rfl, by
    intro h
    have h2 : JSVal.vstr "" = JSVal.varr [JSVal.vstr ""] := Eq.trans (by rfl) h
    exact JSVal.noConfusion h2⟩

/-- C2 amended: for every type whose lower-cased form is in the format table
and every field map providing all of that type's template fields, when the
substituted string is nonempty `fromZoneRecord_` succeeds and yields a
record whose `data` is the one-element sequence holding the fields
substituted into the template in order, with `name` and `ttl` read from the
input map unchanged and the upper-cased type stored; when the substituted
string is empty the record's `data` is the scalar empty string instead. -/
theorem fromZoneRecord_builds (ty tmpl : String) (bd : Obj)
    (hl : lookupFormat (lowerStr ty) = some tmpl)
    (hp : fieldsPresent bd (tokenize tmpl) = true)
    (hs : renderItems bd (tokenize tmpl) ≠ "") :
    isOkE (fromZoneRecord_ ty bd) = true ∧
    getO (okOr (fromZoneRecord_ ty bd)) "data"
      = JSVal.varr [JSVal.vstr (renderItems bd (tokenize tmpl))] ∧
    getO (okOr (fromZoneRecord_ ty bd)) "name" = getO bd "name" ∧
    getO (okOr (fromZoneRecord_ ty bd)) "ttl" = getO bd "ttl" ∧
    getO (okOr (fromZoneRecord_ ty bd)) "type" = JSVal.vstr (upperStr ty) := by
  have hfmt := substItems_renders bd (tokenize tmpl) hp
  have h := mkRecord_data ty (renderItems bd (tokenize tmpl))
    (getO bd "name") (getO bd "ttl") hs
  refine ⟨?_, ?_, ?_, ?_, ?_⟩ <;>
    simp [fromZoneRecord_, hl, format, hfmt, Except.map, isOkE, okOr,
      h.1, h.2.1, h.2.2.1, h.2.2.2]

/-- Witness for the amended C2: the SOA example — the seven SOA fields are
substituted in the order mname rname serial retry refresh expire minimum,
and the record data is the one-element sequence with the substituted
string. -/
theorem fromZoneRecord_builds_witness :
    isOkE (fromZoneRecord_ "SOA"
        [("name", JSVal.vstr "example.com."), ("ttl", JSVal.vnum 21600),
         ("mname", JSVal.vstr "ns1.example.com."), ("rname", JSVal.vstr "admin.example.com."),
         ("serial", JSVal.vnum 1), ("retry", JSVal.vnum 7200), ("refresh", JSVal.vnum 3600),
         ("expire", JSVal.vnum 1209600), ("minimum", JSVal.vnum 86400)]) = true ∧
    getO (okOr (fromZoneRecord_ "SOA"
        [("name", JSVal.vstr "example.com."), ("ttl", JSVal.vnum 21600),
         ("mname", JSVal.vstr "ns1.example.com."), ("rname", JSVal.vstr "admin.example.com."),
         ("serial", JSVal.vnum 1), ("retry", JSVal.vnum 7200), ("refresh", JSVal.vnum 3600),
         ("expire", JSVal.vnum 1209600), ("minimum", JSVal.vnum 86400)])) "data"
      = JSVal.varr [JSVal.vstr "ns1.example.com. admin.example.com. 1 7200 3600 1209600 86400"] ∧
    getO (okOr (fromZoneRecord_ "SOA"
        [("name", JSVal.vstr "example.com."), ("ttl", JSVal.vnum 21600),
         ("mname", JSVal.vstr "ns1.example.com."), ("rname", JSVal.vstr "admin.example.com."),
         ("serial", JSVal.vnum 1), ("retry", JSVal.vnum 7200), ("refresh", JSVal.vnum 3600),
         ("expire", JSVal.vnum 1209600), ("minimum", JSVal.vnum 86400)])) "name"
      = JSVal.vstr "example.com." ∧
    getO (okOr (fromZoneRecord_ "SOA"
        [("name", JSVal.vstr "example.com."), ("ttl", JSVal.vnum 21600),
         ("mname", JSVal.vstr "ns1.example.com."), ("rname", JSVal.vstr "admin.example.com."),
         ("serial", JSVal.vnum 1), ("retry", JSVal.vnum 7200), ("refresh", JSVal.vnum 3600),
         ("expire", JSVal.vnum 1209600), ("minimum", JSVal.vnum 86400)])) "ttl"
      = JSVal.vnum 21600 :=
  have h := fromZoneRecord_builds "SOA"
    "\x7bmname\x7d \x7brname\x7d \x7bserial\x7d \x7bretry\x7d \x7brefresh\x7d \x7bexpire\x7d \x7bminimum\x7d"
    [("name", JSVal.vstr "example.com."), ("ttl", JSVal.vnum 21600),
     ("mname", JSVal.vstr "ns1.example.com."), ("rname", JSVal.vstr "admin.example.com."),
     ("serial", JSVal.vnum 1), ("retry", JSVal.vnum 7200), ("refresh", JSVal.vnum 3600),
     ("expire", JSVal.vnum 1209600), ("minimum", JSVal.vnum 86400)]
    rfl rfl (by decide)
  ⟨h.1, h.2.1, h.2.2.1, h.2.2.2.1⟩

/-- Binding a successful `Except` computation applies the continuation. -/
theorem exceptBindOk {α β γ : Type} (a : α) (f : α → Except γ β) :
    (Except.ok a >>= f) = f a := rfl

/-- Mapping over a successful `Except` computation applies the function. -/
theorem exceptMapOk {α β γ : Type} (g : α → β) (a : α) :
    (g <$> (Except.ok a : Except γ α)) = Except.ok (g a) := rfl

/-- The tokenized form of the `toString` line template. -/
theorem tokenize_line :
    tokenize lineTemplate =
      [TItem.field "name", TItem.lit " ", TItem.field "ttl", TItem.lit " ",
       TItem.lit "I", TItem.lit "N", TItem.lit " ", TItem.field "type",
       TItem.lit " ", TItem.field "rrdata"] := rfl

/-- Regrouping of the appends produced by substituting the line template. -/
theorem lineEq (n ts tystr x : String) :
    n ++ (" " ++ (ts ++ (" " ++ ("I" ++ ("N" ++ (" " ++ (tystr ++ (" " ++ (x ++ ""))))))))) =
      n ++ " " ++ ts ++ " IN " ++ tystr ++ " " ++ x := by
  apply String.ext
  have hnil : "".data = ([] : List Char) := rfl
  simp [String.data_append, hnil]

/-- Rendering the line template over a sequence of string entries: one line
per entry, in order. -/
theorem renderLines_strs (n tystr : String) (t : Int) (a : JSVal) :
    ∀ xs : List String,
      renderLines [("name", JSVal.vstr n), ("ttl", JSVal.vnum t),
          ("type", JSVal.vstr tystr), ("rrdatas", a)] (xs.map JSVal.vstr)
        = Except.ok (xs.map (fun x => n ++ " " ++ toString t ++ " IN " ++ tystr ++ " " ++ x))
  | [] => rfl
  | x :: rest => by
    have hr := renderLines_strs n tystr t a rest
    have hline : substItems (setO [("name", JSVal.vstr n), ("ttl", JSVal.vnum t),
        ("type", JSVal.vstr tystr), ("rrdatas", a)] "rrdata" (JSVal.vstr x))
        (tokenize lineTemplate)
        = Except.ok (n ++ " " ++ toString t ++ " IN " ++ tystr ++ " " ++ x) := by
      rw [← lineEq]
      simp [tokenize_line, setO, hasO, getO, substItems, Except.map, jsToString]
    simp only [renderLines, hline, hr]
    rfl

/-- C3 counterexample: a record whose `rrdatas` sequence is empty renders to
the empty string — zero lines — because in JavaScript an empty array is
truthy and is mapped over directly; only an absent (falsy) `rrdatas` falls
back to the single synthetic empty entry, as the record without `data`
shows.  The claim requires a single synthetic-entry line for the empty
sequence as well, which differs from the empty output. -/
theorem toString_empty_counterexample :
    recordToString (mkRecord "A" [("name", JSVal.vstr "example.com."),
        ("ttl", JSVal.vnum 300), ("data", JSVal.varr [])]) = Except.ok "" ∧
    recordToString (mkRecord "A" [("name", JSVal.vstr "example.com."),
        ("ttl", JSVal.vnum 300)]) = Except.ok "example.com. 300 IN A [object Object]" ∧
    ("" : String) ≠ "example.com. 300 IN A [object Object]" :=
  ⟨rfl, rfl, by decide⟩

/-- C3 amended: for every constructed record (whose stored type is the
uppercase form), `toString` emits one line `name ttl IN type rrdata` per
entry of the wire-shape `rrdatas` sequence computed by `toJSON`, the lines
newline-joined with no trailing newline; an empty sequence yields the empty
output (zero lines), and only when the sequence is absent is a single
synthetic empty-entry line emitted (the empty object in the `rrdata`
position). -/
theorem toString_lines (ty n : String) (t : Int) (xs : List String)
    (hu : upperStr ty = ty) :
    recordToString (mkRecord ty [("name", JSVal.vstr n), ("ttl", JSVal.vnum t),
        ("data", JSVal.varr (xs.map JSVal.vstr))]) =
      Except.ok (joinNL (xs.map (fun x => n ++ " " ++ toString t ++ " IN " ++ ty ++ " " ++ x))) ∧
    recordToString (mkRecord ty [("name", JSVal.vstr n), ("ttl", JSVal.vnum t),
        ("data", JSVal.varr [])]) = Except.ok "" ∧
    recordToString (mkRecord ty [("name", JSVal.vstr n), ("ttl", JSVal.vnum t)]) =
      Except.ok (n ++ " " ++ toString t ++ " IN " ++ ty ++ " " ++ "[object Object]") := by
  have hline3 : substItems [("name", JSVal.vstr n), ("ttl", JSVal.vnum t),
      ("type", JSVal.vstr ty), ("rrdata", JSVal.vobj [])] (tokenize lineTemplate)
      = Except.ok (n ++ " " ++ toString t ++ " IN " ++ ty ++ " " ++ "[object Object]") := by
    rw [← lineEq]
    simp [tokenize_line, hasO, getO, substItems, Except.map, jsToString]
  refine ⟨?_, ?_, ?_⟩
  · simp [recordToString, toStringM, mkRecord, toJSON, extendO, setO, delO, getO,
      hasO, truthy, arrify, isDef, strOf, objOf, hu, exceptBindOk, exceptMapOk,
      renderLines_strs]
  · simp [recordToString, toStringM, mkRecord, toJSON, extendO, setO, delO, getO,
      hasO, truthy, arrify, isDef, strOf, objOf, hu, exceptBindOk, exceptMapOk,
      renderLines, joinNL]
  · simp [recordToString, toStringM, mkRecord, toJSON, extendO, setO, delO, getO,
      hasO, truthy, arrify, isDef, strOf, objOf, hu, exceptBindOk, exceptMapOk,
      renderLines, hline3, joinNL, joinNLRest, String.append_empty]

/-- Witness for the amended C3: the two-value A record renders to exactly
the two expected lines, newline-joined. -/
theorem toString_lines_witness :
    recordToString (mkRecord "A" [("name", JSVal.vstr "example.com."),
        ("ttl", JSVal.vnum 300),
        ("data", JSVal.varr [JSVal.vstr "1.2.3.4", JSVal.vstr "5.6.7.8"])]) =
      Except.ok "example.com. 300 IN A 1.2.3.4\nexample.com. 300 IN A 5.6.7.8" :=
  (toString_lines "A" "example.com." 300 ["1.2.3.4", "5.6.7.8"] rfl).1

end DnsRecord
